import Mathlib

/-!
Shallow embedding of the ESP32 radar firmware (`src/Radar_Code.C`).

The firmware keeps four pieces of global mutable state — the last measured
`distance`, the sweep `direction` flag, the `measureCounter`, and the levels it
has written to the two motor direction output pins — and runs a `setup`
handshake followed by an unbounded `loop`.  We embed that state as a record,
each C function as a state transformer, and the observable calls of a loop
iteration (serial messages, motor stop/resume, direction reversal) as an
explicit event list.  C `float` arithmetic is modelled exactly by `ℚ`; echo
durations (`pulseIn` results, microseconds) are modelled by `ℕ`.
-/

namespace Radar

/-- Levels of the two motor direction output lines, `directionPin1` (GPIO 26)
and `directionPin2` (GPIO 27); `true` models HIGH, `false` models LOW. -/
structure PinState where
  dir1 : Bool
  dir2 : Bool
  deriving DecidableEq

/-- The firmware's global mutable state: `float distance`, `bool direction`
(`true` = forward), `int measureCounter` (only ever set to `0` or
incremented, hence modelled by `ℕ`), plus the levels last written to the two
direction pins. -/
structure State where
  distance : ℚ
  direction : Bool
  measureCounter : ℕ
  pins : PinState
  deriving DecidableEq

/-- `MAX_VALUE` (line 19): maximum valid distance in cm. -/
def MAX_VALUE : ℚ := 400

/-- `MIN_VALUE` (line 20): minimum valid distance in cm. -/
def MIN_VALUE : ℚ := 2

/-- `changeDirection()` (lines 28–40): writes the opposite direction pattern to
the two direction pins and flips the `direction` flag. -/
def changeDirection (s : State) : State :=
  if s.direction then
    { s with pins := ⟨false, true⟩, direction := false }
  else
    { s with pins := ⟨true, false⟩, direction := true }

/-- `startStop(isTrue)` (lines 44–61): with `true` it drives both direction
pins LOW (motor stopped); with `false` it drives the pattern of the current
`direction` (reverse = `(LOW, HIGH)`, forward = `(HIGH, LOW)`). -/
def startStop (isTrue : Bool) (s : State) : State :=
  if isTrue then
    { s with pins := ⟨false, false⟩ }
  else
    if !s.direction then
      { s with pins := ⟨false, true⟩ }
    else
      { s with pins := ⟨true, false⟩ }

/-- `calculateDistanceCM()` (lines 78–87) with the echo `duration` (the
`pulseIn` result, in µs; `0` on timeout) made an explicit argument: converts
the duration to `duration * 0.034 / 2` cm and returns it when it lies in
`[MIN_VALUE, MAX_VALUE]`, otherwise returns `0`. -/
def calculateDistanceCM (duration : ℕ) : ℚ :=
  let distance : ℚ := duration * (34 / 1000) / 2
  if MIN_VALUE ≤ distance ∧ distance ≤ MAX_VALUE then distance else 0

/-- Observable events of the firmware: calls into the drive actuator
(`startStop true`, `startStop false`, `changeDirection`) and the serial
messages of a loop iteration (`"FWR"`, `"Distance: %f"`, `"CDR"`). -/
inductive Ev where
  | stopCall : Ev
  | resumeCall : Ev
  | reverseCall : Ev
  | serialFWR : Ev
  | serialDistance : ℚ → Ev
  | serialCDR : Ev
  deriving DecidableEq

/-- Lines 156–160 of `loop()`: if `measureCounter > 89`, reset the counter to
`0`, emit `"CDR"` and call `changeDirection()`; otherwise do nothing. -/
def maybeReverse (s : State) : State × List Ev :=
  if 89 < s.measureCounter then
    (changeDirection { s with measureCounter := 0 }, [Ev.serialCDR, Ev.reverseCall])
  else
    (s, [])

/-- One iteration of `loop()` (lines 136–167), with the echo duration of this
cycle's measurement as an argument: stop the motor, emit `"FWR"`, measure and
store the distance, report it, maybe reverse (lines 156–160), resume the motor
(line 163), and finally increment `measureCounter` (line 166).  Returns the new
state and the iteration's event list in program order. -/
def loop (echo : ℕ) (s : State) : State × List Ev :=
  let s1 := startStop true s
  let d := calculateDistanceCM echo
  let s2 := { s1 with distance := d }
  let r := maybeReverse s2
  let s4 := startStop false r.1
  let s5 := { s4 with measureCounter := s4.measureCounter + 1 }
  (s5, Ev.stopCall :: Ev.serialFWR :: Ev.serialDistance d :: (r.2 ++ [Ev.resumeCall]))

/-- The global state right after the variable initialisers (lines 22–24) and
the `pinMode(..., OUTPUT)` calls of `setup()`: distance `0`, direction forward,
counter `0`, and both direction pins at their power-on LOW level (no
`digitalWrite` has happened yet). -/
def bootState : State :=
  { distance := 0, direction := true, measureCounter := 0, pins := ⟨false, false⟩ }

/-- The state in which `loop()` starts: `bootState` after the single
`startStop(false)` that the handshake performs on release (line 125). -/
def initState : State := startStop false bootState

/-- The state after `n` complete iterations of `loop()` starting from
`initState`, where `echo n` is the echo duration measured during iteration
`n + 1`. -/
def run (echo : ℕ → ℕ) : ℕ → State
  | 0 => initState
  | n + 1 => (loop (echo n) (run echo n)).1

/-- The event list of loop iteration `n + 1` (the iteration that starts from
`run echo n`). -/
def cycleEvents (echo : ℕ → ℕ) (n : ℕ) : List Ev :=
  (loop (echo n) (run echo n)).2

/-- The handshake loop of `setup()` (lines 118–130) applied to the finite
sequence of lines that arrive on the serial port, each line given as
`Serial.readStringUntil('\n')` returns it: terminating `'\n'` consumed and
dropped, any preceding `'\r'` kept.  On the first line equal to `"RDY\r"`
(line 122) it calls `startStop(false)` once and leaves `setup`; `none` means
every line was consumed and the gate is still blocked (the real loop would keep
polling forever). -/
def setupHandshake : List String → State → Option (State × List Ev)
  | [], _ => none
  | l :: ls, s =>
    if l = "RDY\r" then some (startStop false s, [Ev.resumeCall]) else setupHandshake ls s

/-- Modelled from the spec: the spec's trimming of a trailing carriage
return / line feed from a received handshake line (`src/Radar_Code.C` itself
never trims; it compares the raw line, so this definition exists only to state
the spec side of the handshake claim). -/
def trimTrailingCRLF (s : String) : String :=
  String.mk ((s.data.reverse.dropWhile fun c => c == '\r' || c == '\n').reverse)

/-- Modelled from the spec: "the gate releases iff the trimmed token equals a
fixed expected literal (`RDY`)". -/
def specGateReleases (line : String) : Bool :=
  trimTrailingCRLF line == "RDY"

/-- The three drive-actuator operations of the spec, as realised by the code:
`stop` = `startStop(true)`, `resume` = `startStop(false)`,
`reverse` = `changeDirection()`. -/
inductive DriveOp where
  | stop : DriveOp
  | resume : DriveOp
  | reverse : DriveOp
  deriving DecidableEq

/-- Apply one drive-actuator operation to the state. -/
def applyOp : DriveOp → State → State
  | DriveOp.stop, s => startStop true s
  | DriveOp.resume, s => startStop false s
  | DriveOp.reverse, s => changeDirection s

/-- Apply a sequence of drive-actuator operations from left to right. -/
def applyOps : List DriveOp → State → State
  | [], s => s
  | op :: ops, s => applyOps ops (applyOp op s)

/-- C1: for every echo duration `t` (µs) the raw distance `t * 0.034 / 2`
equals `t * 0.017`; `calculateDistanceCM` returns it when it lies in
`[MIN_VALUE, MAX_VALUE] = [2, 400]` and returns the sentinel `0` otherwise, so
every returned value is in `[2, 400]` or exactly `0`; in particular
`t = 1000 µs` yields `17` cm. -/
theorem calculateDistanceCM_spec (t : ℕ) :
    ((t : ℚ) * (34 / 1000) / 2 = (t : ℚ) * (17 / 1000))
    ∧ (MIN_VALUE ≤ (t : ℚ) * (17 / 1000) ∧ (t : ℚ) * (17 / 1000) ≤ MAX_VALUE →
        calculateDistanceCM t = (t : ℚ) * (17 / 1000))
    ∧ (¬(MIN_VALUE ≤ (t : ℚ) * (17 / 1000) ∧ (t : ℚ) * (17 / 1000) ≤ MAX_VALUE) →
        calculateDistanceCM t = 0)
    ∧ ((MIN_VALUE ≤ calculateDistanceCM t ∧ calculateDistanceCM t ≤ MAX_VALUE)
        ∨ calculateDistanceCM t = 0)
    ∧ calculateDistanceCM 1000 = 17 := by
  have hraw : (t : ℚ) * (34 / 1000) / 2 = (t : ℚ) * (17 / 1000) := by ring
  refine ⟨hraw, ?_, ?_, ?_, ?_⟩
  · intro h
    simp only [calculateDistanceCM, hraw]
    exact if_pos h
  · intro h
    simp only [calculateDistanceCM, hraw]
    exact if_neg h
  · by_cases h : MIN_VALUE ≤ (t : ℚ) * (34 / 1000) / 2 ∧ (t : ℚ) * (34 / 1000) / 2 ≤ MAX_VALUE
    · left
      simpa [calculateDistanceCM, if_pos h] using h
    · right
      simp [calculateDistanceCM, if_neg h]
  · norm_num [calculateDistanceCM, MIN_VALUE, MAX_VALUE]

/-- Witness for C1: at `t = 1000` the raw distance `17` is in range and is
returned; at `t = 30000` the raw distance `510` is out of range and the
sentinel `0` is returned. -/
theorem calculateDistanceCM_spec_witness :
    calculateDistanceCM 1000 = (1000 : ℚ) * (17 / 1000)
    ∧ calculateDistanceCM 30000 = 0 :=
  ⟨(calculateDistanceCM_spec 1000).2.1 (by norm_num [MIN_VALUE, MAX_VALUE]),
   (calculateDistanceCM_spec 30000).2.2.1 (by norm_num [MIN_VALUE, MAX_VALUE])⟩

/-- `startStop` leaves `measureCounter` unchanged. -/
theorem startStop_measureCounter (b : Bool) (s : State) :
    (startStop b s).measureCounter = s.measureCounter := by
  unfold startStop
  split_ifs <;> rfl

/-- `changeDirection` leaves `measureCounter` unchanged. -/
theorem changeDirection_measureCounter (s : State) :
    (changeDirection s).measureCounter = s.measureCounter := by
  unfold changeDirection
  split_ifs <;> rfl

/-- One loop iteration maps the counter `c` to `1` when `89 < c` (reset to `0`
by the reversal branch, then incremented at line 166) and to `c + 1`
otherwise. -/
theorem counter_step (echo : ℕ) (s : State) :
    (loop echo s).1.measureCounter =
      if 89 < s.measureCounter then 1 else s.measureCounter + 1 := by
  by_cases h : 89 < s.measureCounter <;>
    simp [loop, maybeReverse, startStop, changeDirection, h] <;>
    split_ifs <;> rfl

/-- Closed form of the counter after `n` complete loop iterations: it climbs
`0, 1, …, 90` during the first sweep and afterwards cycles through
`1, …, 90` with period `90`. -/
theorem counter_closed (e : ℕ → ℕ) : ∀ n : ℕ,
    (run e n).measureCounter = if n ≤ 90 then n else (n - 91) % 90 + 1
  | 0 => by simp [run, initState, startStop, bootState]
  | n + 1 => by
    rw [run, counter_step, counter_closed e n]
    split_ifs <;> omega

/-- The event list of one loop iteration: stop, `"FWR"`, the distance report,
then — exactly when the entry counter exceeds 89 — `"CDR"` and the
`changeDirection()` call, and finally the resume. -/
theorem loop_events (echo : ℕ) (s : State) :
    (loop echo s).2 =
      if 89 < s.measureCounter then
        [Ev.stopCall, Ev.serialFWR, Ev.serialDistance (calculateDistanceCM echo),
         Ev.serialCDR, Ev.reverseCall, Ev.resumeCall]
      else
        [Ev.stopCall, Ev.serialFWR, Ev.serialDistance (calculateDistanceCM echo),
         Ev.resumeCall] := by
  by_cases h : 89 < s.measureCounter <;>
    simp [loop, maybeReverse, startStop, changeDirection, h]

/-- One loop iteration flips the direction flag exactly when the entry counter
exceeds 89. -/
theorem loop_direction (echo : ℕ) (s : State) :
    (loop echo s).1.direction =
      if 89 < s.measureCounter then !s.direction else s.direction := by
  by_cases h : 89 < s.measureCounter <;> cases hd : s.direction <;>
    simp [loop, maybeReverse, startStop, changeDirection, h, hd]

/-- At the end of every loop iteration the pins hold the running pattern of the
iteration's final direction (the closing `startStop(false)` wrote them). -/
theorem loop_pins (echo : ℕ) (s : State) :
    (loop echo s).1.pins =
      if (loop echo s).1.direction then PinState.mk true false
      else PinState.mk false true := by
  by_cases h : 89 < s.measureCounter <;> cases hd : s.direction <;>
    simp [loop, maybeReverse, startStop, changeDirection, h, hd]

/-- An echo duration of `0` (sensor timeout) yields the sentinel distance. -/
theorem calculateDistanceCM_zero : calculateDistanceCM 0 = 0 := by
  norm_num [calculateDistanceCM, MIN_VALUE, MAX_VALUE]

/-- The state at the start of the 91st loop iteration when every echo duration
is `0`: counter `90`, still sweeping forward, pins in the forward running
pattern. -/
def s90 : State :=
  { distance := 0, direction := true, measureCounter := 90, pins := ⟨true, false⟩ }

/-- With all echo durations `0`, the first `90` iterations leave the direction
forward and just count up. -/
theorem run_zero_first90 : ∀ n, n ≤ 90 →
    run (fun _ => 0) n =
      { distance := if n = 0 then 0 else 0, direction := true, measureCounter := n,
        pins := ⟨true, false⟩ } := by
  intro n
  induction n with
  | zero => intro _; rfl
  | succ n ih =>
    intro hn
    have hle : n ≤ 90 := by omega
    have hlt : ¬ 89 < n := by omega
    rw [run, ih hle]
    simp [loop, maybeReverse, startStop, changeDirection, calculateDistanceCM_zero, hlt]

/-- C2 counterexample: a line `RDY` terminated by LF alone reaches the compare
as the string `"RDY"` (the `'\n'` is consumed by `readStringUntil`); the
spec-side trimmed comparison accepts it, but the handshake loop, which compares
the raw line against the literal `"RDY\r"` (line 122), does not release. -/
theorem setupHandshake_lf_only_cex :
    specGateReleases "RDY" = true ∧ setupHandshake ["RDY"] bootState = none :=
  ⟨rfl, rfl⟩

/-- C2 amended: the gate releases iff some received line (with its terminating
LF already consumed by `readStringUntil`) is exactly `"RDY\r"` — i.e. `RDY`
terminated by CR LF; `RDY` terminated by LF alone, empty lines, and `RDY` with
extra characters all leave it blocked — and on release exactly one
`startStop(false)` resume happens, leaving the state the handshake's
`startStop(false)` produces. -/
theorem setupHandshake_release (lines : List String) (s : State) :
    ((setupHandshake lines s).isSome ↔ "RDY\r" ∈ lines)
    ∧ ∀ s2 evs, setupHandshake lines s = some (s2, evs) →
        evs = [Ev.resumeCall] ∧ s2 = startStop false s := by
  induction lines with
  | nil => simp [setupHandshake]
  | cons l ls ih =>
    by_cases h : l = "RDY\r"
    · subst h
      refine ⟨by simp [setupHandshake], ?_⟩
      intro s2 evs heq
      simp [setupHandshake] at heq
      exact ⟨heq.2.symm, heq.1.symm⟩
    · have hne : ¬ ("RDY\r" = l) := fun heq => h heq.symm
      constructor
      · simp only [setupHandshake, if_neg h]
        simp [List.mem_cons, hne, ih.1]
      · intro s2 evs heq
        simp only [setupHandshake, if_neg h] at heq
        exact ih.2 s2 evs heq

/-- Witness for C2's amended theorem: a `"foo"` line is ignored and the
following `"RDY\r"` line (a CR LF terminated `RDY`) releases the gate with
exactly one resume call. -/
theorem setupHandshake_release_witness :
    [Ev.resumeCall] = [Ev.resumeCall] ∧ initState = startStop false bootState :=
  (setupHandshake_release ["foo", "RDY\r"] bootState).2 initState [Ev.resumeCall] rfl

/-- C3 counterexample: reversals fire during iterations 91 (counter `90`
entering) and 181, but iteration 181 is only the 90th cycle after the reversal
of iteration 91 (that reversal cycle itself ends with counter `1`), and
iteration 182 — the claim's "91st cycle since the last reversal" — does not
fire.  So after a reversal the code reverses on the 90th cycle, not the
91st. -/
theorem reversal_schedule_cex :
    89 < (run (fun _ => 0) 90).measureCounter
    ∧ 89 < (run (fun _ => 0) 180).measureCounter
    ∧ (run (fun _ => 0) 181).measureCounter ≤ 89
    ∧ (run (fun _ => 0) 91).measureCounter = 1 := by
  refine ⟨?_, ?_, ?_, ?_⟩ <;> rw [counter_closed] <;> norm_num

/-- C3 amended: from start, cycles 1–90 trigger no reversal and iteration 91
triggers the first one; because the reversal cycle itself counts toward the
next sweep (it ends with counter `1`), each later reversal fires on the 90th
cycle after the previous one, i.e. exactly the iterations `n + 1` with
`n ≥ 90` and `n ≡ 0 (mod 90)` (iterations 91, 181, 271, …), each with exactly
one `changeDirection()` call in its event list. -/
theorem scan_reversal_schedule (e : ℕ → ℕ) (n : ℕ) :
    cycleEvents e n =
      if 90 ≤ n ∧ n % 90 = 0 then
        [Ev.stopCall, Ev.serialFWR, Ev.serialDistance (calculateDistanceCM (e n)),
         Ev.serialCDR, Ev.reverseCall, Ev.resumeCall]
      else
        [Ev.stopCall, Ev.serialFWR, Ev.serialDistance (calculateDistanceCM (e n)),
         Ev.resumeCall] := by
  rw [cycleEvents, loop_events, counter_closed]
  split_ifs <;> first | rfl | (exfalso; omega)

/-- C4 counterexample: in the 91st cycle of the all-timeout run (state `s90`,
reached after 90 iterations), the event list is stop, `"FWR"`, the distance
report, `"CDR"`, the `changeDirection()` call, and only then the resume — the
reversal precedes the cycle's own `startStop(false)` — and the cycle already
ends with the reversed direction's pin pattern `(LOW, HIGH)`, so the new
direction takes physical effect in the same cycle, not the next one. -/
theorem loop_resume_order_cex :
    run (fun _ => 0) 90 = s90
    ∧ (loop 0 s90).2 = [Ev.stopCall, Ev.serialFWR, Ev.serialDistance 0,
        Ev.serialCDR, Ev.reverseCall, Ev.resumeCall]
    ∧ (loop 0 s90).2[4]? = some Ev.reverseCall
    ∧ (loop 0 s90).2[5]? = some Ev.resumeCall
    ∧ (loop 0 s90).1.pins = PinState.mk false true
    ∧ (loop 0 s90).1.direction = false := by
  have h90 : run (fun _ => 0) 90 = s90 := by
    rw [run_zero_first90 90 (by norm_num)]
    simp [s90]
  have hev : (loop 0 s90).2 = [Ev.stopCall, Ev.serialFWR, Ev.serialDistance 0,
      Ev.serialCDR, Ev.reverseCall, Ev.resumeCall] := by
    rw [loop_events]
    simp [s90, calculateDistanceCM_zero]
  refine ⟨h90, hev, ?_, ?_, ?_, ?_⟩
  · rw [hev]
    rfl
  · rw [hev]
    rfl
  · rw [loop_pins, loop_direction]
    simp [s90]
  · rw [loop_direction]
    simp [s90]

/-- C4 amended: in a cycle whose entry counter exceeds 89, the events occur in
the order stop, `"FWR"`, distance report, `"CDR"`, `changeDirection()`,
resume — so the reversal happens before that same cycle's resume, the cycle
ends with the flipped direction, and the cycle's own closing `startStop(false)`
already drives the new direction's pin pattern. -/
theorem loop_reversal_order (echo : ℕ) (s : State) (h : 89 < s.measureCounter) :
    (loop echo s).2 = [Ev.stopCall, Ev.serialFWR,
        Ev.serialDistance (calculateDistanceCM echo), Ev.serialCDR, Ev.reverseCall,
        Ev.resumeCall]
    ∧ (loop echo s).1.direction = !s.direction
    ∧ (loop echo s).1.pins =
        (if s.direction then PinState.mk false true else PinState.mk true false) := by
  refine ⟨?_, ?_, ?_⟩
  · rw [loop_events, if_pos h]
  · rw [loop_direction, if_pos h]
  · rw [loop_pins, loop_direction, if_pos h]
    cases hd : s.direction <;> simp [hd]

/-- Witness for C4's amended theorem at the concrete reversal state `s90`. -/
theorem loop_reversal_order_witness :
    (loop 0 s90).2 = [Ev.stopCall, Ev.serialFWR,
        Ev.serialDistance (calculateDistanceCM 0), Ev.serialCDR, Ev.reverseCall,
        Ev.resumeCall]
    ∧ (loop 0 s90).1.direction = !s90.direction
    ∧ (loop 0 s90).1.pins =
        (if s90.direction then PinState.mk false true else PinState.mk true false) :=
  loop_reversal_order 0 s90 (by norm_num [s90])

/-- C5 counterexample: from the stopped boot state (both pins LOW),
`changeDirection()` changes the pin levels itself — it drives the reverse
running pattern `(LOW, HIGH)` — so it does perform output-pin writes of its
own and does not leave the motor's physical state untouched. -/
theorem changeDirection_pins_cex :
    (changeDirection bootState).pins ≠ bootState.pins
    ∧ bootState.pins = PinState.mk false false
    ∧ (changeDirection bootState).pins = PinState.mk false true := by
  refine ⟨?_, rfl, rfl⟩
  intro h
  simp [changeDirection, bootState] at h

/-- C5 amended: `changeDirection()` flips the in-memory direction flag and in
the same call writes the new direction's running pattern to the two direction
pins (reverse = `(LOW, HIGH)`, forward = `(HIGH, LOW)`); it leaves the counter
and the stored distance untouched.  The flipped direction therefore takes
physical effect immediately, not only at the next `startStop(false)`. -/
theorem changeDirection_spec (s : State) :
    (changeDirection s).direction = !s.direction
    ∧ (changeDirection s).pins =
        (if s.direction then PinState.mk false true else PinState.mk true false)
    ∧ (changeDirection s).measureCounter = s.measureCounter
    ∧ (changeDirection s).distance = s.distance := by
  cases hd : s.direction <;> simp [changeDirection, hd]

/-- C6: the counter is at most `90` after every complete cycle, the
maybe-reverse step never leaves it above `89` when it was in range, and
whenever the reversal condition fires the counter is `0` immediately after the
reversal step (it is then incremented to `1` at the end of the cycle). -/
theorem measureCounter_invariant (e : ℕ → ℕ) (n : ℕ) (s : State) :
    (run e n).measureCounter ≤ 90
    ∧ (s.measureCounter ≤ 90 → (maybeReverse s).1.measureCounter ≤ 89)
    ∧ (89 < s.measureCounter → (maybeReverse s).1.measureCounter = 0) := by
  refine ⟨?_, ?_, ?_⟩
  · rw [counter_closed]
    split_ifs <;> omega
  · intro hs
    by_cases h : 89 < s.measureCounter
    · simp [maybeReverse, h, changeDirection_measureCounter]
    · simp only [maybeReverse, if_neg h]
      omega
  · intro h
    simp [maybeReverse, h, changeDirection_measureCounter]

/-- Witness for C6 at the reversal state `s90` and a concrete run prefix. -/
theorem measureCounter_invariant_witness :
    (run (fun _ => 0) 7).measureCounter ≤ 90
    ∧ (maybeReverse s90).1.measureCounter = 0 :=
  ⟨(measureCounter_invariant (fun _ => 0) 7 s90).1,
   (measureCounter_invariant (fun _ => 0) 7 s90).2.2 (by norm_num [s90])⟩

/-- Any single drive-actuator call leaves the two direction pins in one of the
patterns `(LOW, LOW)`, `(LOW, HIGH)`, `(HIGH, LOW)` — never both HIGH. -/
theorem applyOp_not_both (op : DriveOp) (s : State) :
    ((applyOp op s).pins.dir1 && (applyOp op s).pins.dir2) = false := by
  cases op <;> cases hd : s.direction <;>
    simp [applyOp, startStop, changeDirection, hd]

/-- The never-both-HIGH pin invariant is preserved by any sequence of
drive-actuator calls. -/
theorem applyOps_not_both (ops : List DriveOp) :
    ∀ s : State, (s.pins.dir1 && s.pins.dir2) = false →
      ((applyOps ops s).pins.dir1 && (applyOps ops s).pins.dir2) = false := by
  induction ops with
  | nil =>
    intro s hs
    simpa [applyOps] using hs
  | cons op ops ih =>
    intro s hs
    rw [applyOps]
    exact ih (applyOp op s) (applyOp_not_both op s)

/-- C7: in every state reachable from the boot state by any sequence of stop,
resume and reverse operations the two direction pins are never both HIGH;
stop drives both LOW and resume drives exactly the mutually exclusive pattern
of the current direction. -/
theorem motor_pins_mutually_exclusive (ops : List DriveOp) :
    ((applyOps ops bootState).pins.dir1 && (applyOps ops bootState).pins.dir2) = false
    ∧ (∀ s : State, (applyOp DriveOp.stop s).pins = PinState.mk false false)
    ∧ (∀ s : State, (applyOp DriveOp.resume s).pins =
        (if s.direction then PinState.mk true false else PinState.mk false true)) := by
  refine ⟨applyOps_not_both ops bootState rfl, ?_, ?_⟩
  · intro s
    simp [applyOp, startStop]
  · intro s
    cases hd : s.direction <;> simp [applyOp, startStop, hd]

/-- C8: `changeDirection()` followed by `startStop(false)` yields the swapped
(opposite) pin pattern of a plain `startStop(false)`, for both directions;
`changeDirection()` twice restores the original direction, and resuming then
restores the original actuation pattern. -/
theorem reverse_resume_opposite (s : State) :
    (startStop false (changeDirection s)).pins.dir1 = (startStop false s).pins.dir2
    ∧ (startStop false (changeDirection s)).pins.dir2 = (startStop false s).pins.dir1
    ∧ (changeDirection (changeDirection s)).direction = s.direction
    ∧ (startStop false (changeDirection (changeDirection s))).pins
        = (startStop false s).pins := by
  cases hd : s.direction <;> simp [startStop, changeDirection, hd]

/-- C9: `startStop(true)` drives both pins LOW whatever the current state and
direction, leaves direction, counter and distance untouched, and is
idempotent — a second call leaves the entire state identical. -/
theorem stop_idempotent (s : State) :
    (startStop true s).pins = PinState.mk false false
    ∧ startStop true (startStop true s) = startStop true s
    ∧ (startStop true s).direction = s.direction
    ∧ (startStop true s).measureCounter = s.measureCounter
    ∧ (startStop true s).distance = s.distance := by
  simp [startStop]

/-- C10: a cycle in which the reversal condition fires resets the counter and
then increments it, so the cycle ends with counter `1`; the flipped direction's
pin pattern is already driven by that same cycle's `startStop(false)`; and the
condition fires exactly on iterations `m + 1` with `m + 1 ≥ 91` and
`m + 1 ≡ 1 (mod 90)`, i.e. iterations 91, 181, 271, … — every 90 cycles. -/
theorem reversal_cycle_behaviour (e : ℕ → ℕ) (n : ℕ)
    (h : 89 < (run e n).measureCounter) :
    (run e (n + 1)).measureCounter = 1
    ∧ (run e (n + 1)).direction = !(run e n).direction
    ∧ (run e (n + 1)).pins =
        (if (run e n).direction then PinState.mk false true else PinState.mk true false)
    ∧ (∀ m : ℕ, 89 < (run e m).measureCounter ↔ 91 ≤ m + 1 ∧ (m + 1) % 90 = 1) := by
  refine ⟨?_, ?_, ?_, ?_⟩
  · rw [run, counter_step, if_pos h]
  · rw [run, loop_direction, if_pos h]
  · rw [run, loop_pins, loop_direction, if_pos h]
    cases hd : (run e n).direction <;> simp [hd]
  · intro m
    rw [counter_closed]
    split_ifs <;> omega

/-- Witness for C10 at the first reversal (iteration 91) of the all-timeout
run. -/
theorem reversal_cycle_behaviour_witness :
    (run (fun _ => 0) (90 + 1)).measureCounter = 1
    ∧ (run (fun _ => 0) (90 + 1)).direction = !(run (fun _ => 0) 90).direction
    ∧ (run (fun _ => 0) (90 + 1)).pins =
        (if (run (fun _ => 0) 90).direction then PinState.mk false true
         else PinState.mk true false)
    ∧ (∀ m : ℕ, 89 < (run (fun _ => 0) m).measureCounter ↔
        91 ≤ m + 1 ∧ (m + 1) % 90 = 1) :=
  reversal_cycle_behaviour (fun _ => 0) 90 (by rw [counter_closed]; norm_num)

end Radar
